import Mathlib

/-!
Verification development for two browser scripts of this repository:

* `preprocess-date.js` — the *annotator*: finds every `<time>` element,
  resolves a calendar date for it (preferring the `datetime` attribute,
  falling back to parsing the trimmed text content), and writes
  `data-date` / `data-year` / `data-month` / `data-day` attributes onto a
  resolved ancestor element (`closest(parentSelector)` or the immediate
  parent).

* the *formatter* (`formatDate` / `applyAllDateFormats`): for each
  configuration `{selector, name, format}` it parses each matched
  element's trimmed text as a date, sets the `datetime` attribute on
  `<time>` elements, substitutes format tokens (longest code first,
  `\b`-bounded) by `<span class="...">value</span>` markup and replaces
  the element's content with the result wrapped in a `<span>` carrying
  the configuration's `name` class.

The DOM is embedded as a flat list of nodes with parent pointers.  The
browser-supplied primitives — `new Date(string)` parsing and CSS selector
matching — are environment parameters (`Env`); a concrete reference
environment models them for the date formats and selectors exercised
here.  Dates are modelled timezone-free (a UTC environment), so the
calendar components read back from a parsed date agree with its ISO
string.
-/

/-! ### String utilities (models of the JS string operations used) -/

/-- JS whitespace for `String.prototype.trim` (the characters relevant here). -/
def isWsChar (c : Char) : Bool :=
  c = ' ' ∨ c = '\t' ∨ c = '\n' ∨ c = '\r'

/-- Model of JS `s.trim()`. -/
def jsTrim (s : String) : String :=
  String.mk (((s.data.dropWhile isWsChar).reverse.dropWhile isWsChar).reverse)

/-- Decimal digit character for `n < 10`. -/
def digitChar (n : Nat) : Char := Char.ofNat (48 + n)

/-- Decimal digits of `n`, most significant first (`fuel`-bounded division). -/
def natDigits : Nat → Nat → List Char
  | 0, _ => []
  | fuel + 1, n =>
    if n < 10 then [digitChar n]
    else natDigits fuel (n / 10) ++ [digitChar (n % 10)]

/-- Model of JS number-to-string conversion for naturals (`String(n)`, `${n}`). -/
def natToStr (n : Nat) : String := String.mk (natDigits (n + 1) n)

/-- Model of `String(n).padStart(2, '0')` for `n < 100`. -/
def pad2 (n : Nat) : String := if n < 10 then "0" ++ natToStr n else natToStr n

/-- Four-digit year field of `toISOString` for years up to 9999. -/
def pad4 (n : Nat) : String :=
  if n < 10 then "000" ++ natToStr n
  else if n < 100 then "00" ++ natToStr n
  else if n < 1000 then "0" ++ natToStr n
  else natToStr n

/-- Model of JS `s.slice(-2)`: the last two characters (whole string if shorter). -/
def sliceLast2 (s : String) : String :=
  String.mk (s.data.drop (s.data.length - 2))

/-! ### Calendar dates -/

/-- A calendar date as the scripts consume it: `year`, 1-based `month`
(so JS `getMonth() + 1 = month`), day of month (`getDate`). -/
structure SDate where
  year : Nat
  month : Nat
  day : Nat
deriving DecidableEq, Repr

def isLeap (y : Nat) : Bool := y % 4 = 0 ∧ (y % 100 ≠ 0 ∨ y % 400 = 0)

def daysInMonth (y m : Nat) : Nat :=
  if m = 2 then (if isLeap y then 29 else 28)
  else if m = 4 ∨ m = 6 ∨ m = 9 ∨ m = 11 then 30
  else 31

def validDate (y m d : Nat) : Bool :=
  1 ≤ m ∧ m ≤ 12 ∧ 1 ≤ d ∧ d ≤ daysInMonth y m

/-- Day of week for the Gregorian calendar (0 = Sunday), as JS `getDay`
computes for a timezone-free date; Sakamoto's method. -/
def dayOfWeek (y m d : Nat) : Nat :=
  let t := [0, 3, 2, 5, 0, 3, 5, 1, 4, 6, 2, 4]
  let y := if m < 3 then y - 1 else y
  (y + y / 4 - y / 100 + y / 400 + t.getD (m - 1) 0 + d) % 7

def monthLongNames : List String :=
  ["January", "February", "March", "April", "May", "June", "July",
   "August", "September", "October", "November", "December"]

def monthShortNames : List String :=
  ["Jan", "Feb", "Mar", "Apr", "May", "Jun", "Jul", "Aug", "Sep", "Oct",
   "Nov", "Dec"]

def weekdayLongNames : List String :=
  ["Sunday", "Monday", "Tuesday", "Wednesday", "Thursday", "Friday",
   "Saturday"]

def weekdayShortNames : List String :=
  ["Sun", "Mon", "Tue", "Wed", "Thu", "Fri", "Sat"]

/-- `toLocaleDateString('en-US', { month: 'long' })`. -/
def monthLong (m : Nat) : String := monthLongNames.getD (m - 1) ""

/-- `toLocaleDateString('en-US', { month: 'short' })`. -/
def monthShort (m : Nat) : String := monthShortNames.getD (m - 1) ""

/-- `toLocaleDateString('en-US', { weekday: 'long' })`. -/
def weekdayLong (d : SDate) : String :=
  weekdayLongNames.getD (dayOfWeek d.year d.month d.day) ""

/-- `toLocaleDateString('en-US', { weekday: 'short' })`. -/
def weekdayShort (d : SDate) : String :=
  weekdayShortNames.getD (dayOfWeek d.year d.month d.day) ""

/-- Model of `date.toISOString().split('T')[0]` in a UTC environment:
the normalized `YYYY-MM-DD` string. -/
def isoDate (d : SDate) : String :=
  pad4 d.year ++ "-" ++ pad2 d.month ++ "-" ++ pad2 d.day

/-! ### A reference model of `new Date(string)` parsing

The browser's `Date` constructor is an environment primitive, not code of
this repository.  `jsParseDate` models it (in a UTC environment) for the
string shapes the scripts and the spec exercise: ISO `YYYY-MM-DD`
optionally followed by a `T...` time part, and the en-US form
`Month D, YYYY` (long or short month names).  Everything else is an
invalid date (`none`). -/

def digitVal (c : Char) : Option Nat :=
  if c.isDigit then some (c.toNat - 48) else none

def digitsVal : List Char → Option Nat
  | [] => none
  | l =>
    if l.all Char.isDigit then
      some (l.foldl (fun acc c => acc * 10 + (c.toNat - 48)) 0)
    else none

/-- A tolerated `T...` time suffix after an ISO date (digits and colons). -/
def timeTailOk : List Char → Bool
  | [] => true
  | 'T' :: rest => rest ≠ [] ∧ rest.all (fun c => c.isDigit ∨ c = ':')
  | _ => false

def parseIsoChars : List Char → Option SDate
  | y1 :: y2 :: y3 :: y4 :: '-' :: m1 :: m2 :: '-' :: d1 :: d2 :: rest =>
    if [y1, y2, y3, y4, m1, m2, d1, d2].all Char.isDigit ∧ timeTailOk rest then
      let y := (((y1.toNat - 48) * 10 + (y2.toNat - 48)) * 10 + (y3.toNat - 48)) * 10
        + (y4.toNat - 48)
      let m := (m1.toNat - 48) * 10 + (m2.toNat - 48)
      let d := (d1.toNat - 48) * 10 + (d2.toNat - 48)
      if validDate y m d then some ⟨y, m, d⟩ else none
    else none
  | _ => none

def monthFromName (s : String) : Option Nat :=
  match (monthLongNames.indexOf? s).orElse (fun _ => monthShortNames.indexOf? s) with
  | some i => some (i + 1)
  | none => none

/-- Split at the first occurrence of `sep`, dropping it. -/
def splitFirst (sep : Char) : List Char → Option (List Char × List Char)
  | [] => none
  | c :: rest =>
    if c = sep then some ([], rest)
    else match splitFirst sep rest with
      | some (a, b) => some (c :: a, b)
      | none => none

/-- `Month D, YYYY` (en-US month name, 1-2 digit day, comma, space, 4-digit year). -/
def parseUsChars (l : List Char) : Option SDate :=
  match splitFirst ' ' l with
  | none => none
  | some (w1, rest1) =>
    match monthFromName (String.mk w1) with
    | none => none
    | some m =>
      match splitFirst ',' rest1 with
      | none => none
      | some (dpart, rest2) =>
        match rest2 with
        | ' ' :: ypart =>
          if dpart.length = 0 ∨ 2 < dpart.length ∨ ypart.length ≠ 4 then none
          else match digitsVal dpart, digitsVal ypart with
            | some d, some y => if validDate y m d then some ⟨y, m, d⟩ else none
            | _, _ => none
        | _ => none

/-- Reference model of `new Date(string)` for this development. -/
def jsParseDate (s : String) : Option SDate :=
  match parseIsoChars (jsTrim s).data with
  | some d => some d
  | none => parseUsChars (jsTrim s).data

example : jsParseDate "2025-12-09" = some ⟨2025, 12, 9⟩ := by decide
example : jsParseDate "2025-12-09T08:00" = some ⟨2025, 12, 9⟩ := by decide
example : jsParseDate "December 9, 2025" = some ⟨2025, 12, 9⟩ := by decide
example : jsParseDate "TBD" = none := by decide
example : jsParseDate "garbage" = none := by decide
example : dayOfWeek 2025 12 9 = 2 := by decide
example : isoDate ⟨2025, 12, 9⟩ = "2025-12-09" := by decide
example : natToStr 2025 = "2025" := by decide

/-! ### The DOM model

A document is a flat list of nodes with parent pointers.  `text` is the
node's `textContent`, `inner` its `innerHTML` (setting the latter also
updates the former, via `stripTags`).  CSS selector matching and `Date`
parsing are environment parameters. -/

abbrev Attrs := List (String × String)

/-- `getAttribute` (first binding wins; bindings are unique in a real DOM). -/
def getAttr : Attrs → String → Option String
  | [], _ => none
  | (k', v) :: rest, k => if k' = k then some v else getAttr rest k

/-- `setAttribute`: overwrite an existing binding in place, else append. -/
def setAttr : Attrs → String → String → Attrs
  | [], k, v => [(k, v)]
  | (k', v') :: rest, k, v =>
    if k' = k then (k, v) :: rest else (k', v') :: setAttr rest k v

structure Node where
  id : Nat
  parent : Option Nat
  tag : String
  attrs : Attrs
  text : String
  inner : String
deriving DecidableEq, Repr

abbrev Dom := List Node

def findNode : Dom → Nat → Option Node
  | [], _ => none
  | n :: rest, i => if n.id = i then some n else findNode rest i

/-- The browser environment: `parse` models `new Date(string)` (invalid
dates are `none`), `sMatches` models CSS selector matching of a node
against a selector string. -/
structure Env where
  parse : String → Option SDate
  sMatches : String → Node → Bool

/-! ### The annotator (`addDateDataAttributes`, `preprocess-date.js`) -/

/-- `timeEl.closest(sel)` starting at `n`, walking parent pointers
(`fuel`-bounded): the nearest self-or-ancestor matching `sel`. -/
def closestFrom (env : Env) (dom : Dom) (sel : String) : Nat → Node → Option Nat
  | 0, _ => none
  | fuel + 1, n =>
    if env.sMatches sel n then some n.id
    else match n.parent with
      | none => none
      | some p =>
        match findNode dom p with
        | none => none
        | some pn => closestFrom env dom sel fuel pn

/-- The self-then-ancestors chain of a node (`fuel`-bounded). -/
def ancestorChain (dom : Dom) : Nat → Node → List Node
  | 0, _ => []
  | fuel + 1, n =>
    n :: (match n.parent with
      | none => []
      | some p =>
        match findNode dom p with
        | none => []
        | some pn => ancestorChain dom fuel pn)

/-- Lines 31-43 of `preprocess-date.js`: prefer the `datetime` attribute
(JS truthiness: absent or empty falls through), else parse the trimmed
text, returning the normalized ISO string; `none` means the early
`return` (skip). -/
def resolveDateValue (env : Env) (el : Node) : Option String :=
  let fallback :=
    match env.parse (jsTrim el.text) with
    | none => none
    | some d => some (isoDate d)
  match getAttr el.attrs "datetime" with
  | none => fallback
  | some s => if s = "" then fallback else some s

/-- Lines 45-53: `closest(parentSelector)` when a selector is configured,
otherwise `parentElement`. -/
def resolveTarget (env : Env) (psel : Option String) (dom : Dom) (el : Node) :
    Option Nat :=
  match psel with
  | some sel => closestFrom env dom sel dom.length el
  | none => el.parent

/-- Lines 56-64: the four `setAttribute` calls, as (key, value) pairs.
`data-date` gets `dateValue` verbatim; the numeric components come from
re-parsing `dateValue` (`new Date(dateValue)`), an invalid re-parse
yielding `NaN` strings. -/
def dateWrites (env : Env) (dateValue : String) : List (String × String) :=
  ("data-date", dateValue) ::
    (match env.parse dateValue with
     | some d =>
       [("data-year", natToStr d.year), ("data-month", natToStr d.month),
        ("data-day", natToStr d.day)]
     | none =>
       [("data-year", "NaN"), ("data-month", "NaN"), ("data-day", "NaN")])

/-- A pending attribute write: target node id, key, value. -/
abbrev Write := Nat × String × String

def applyW1 (w : Write) (n : Node) : Node :=
  if n.id = w.1 then { n with attrs := setAttr n.attrs w.2.1 w.2.2 } else n

def applyWriteDom (d : Dom) (w : Write) : Dom := d.map (applyW1 w)

def applyWrites : Dom → List Write → Dom
  | d, [] => d
  | d, w :: ws => applyWrites (applyWriteDom d w) ws

def applyNodeWrites : Node → List Write → Node
  | n, [] => n
  | n, w :: ws => applyNodeWrites (applyW1 w n) ws

/-- The writes the `forEach` body performs for the time element with id
`i`, reading the current document `d`. -/
def stepWrites (env : Env) (psel : Option String) (d : Dom) (i : Nat) :
    List Write :=
  match findNode d i with
  | none => []
  | some el =>
    match resolveDateValue env el with
    | none => []
    | some dv =>
      match resolveTarget env psel d el with
      | none => []
      | some tid => (dateWrites env dv).map (fun kv => (tid, kv.1, kv.2))

/-- The `forEach` body of `addDateDataAttributes` for one time element. -/
def processTimeEl (env : Env) (psel : Option String) (d : Dom) (i : Nat) : Dom :=
  applyWrites d (stepWrites env psel d i)

/-- `document.querySelectorAll('time')`: ids of time elements, in
document order (a static snapshot). -/
def timeIds : Dom → List Nat
  | [] => []
  | n :: rest => if n.tag = "time" then n.id :: timeIds rest else timeIds rest

/-- `addDateDataAttributes(parentSelector)`: process every time element
of the snapshot, in order, against the live document. -/
def addDateDataAttributes (env : Env) (psel : Option String) (dom : Dom) : Dom :=
  (timeIds dom).foldl (processTimeEl env psel) dom

/-- An attribute value as read off the final document. -/
def lookupAttr (d : Dom) (i : Nat) (k : String) : Option String :=
  match findNode d i with
  | none => none
  | some n => getAttr n.attrs k

/-- The four attribute keys the annotator writes. -/
def dataKeys : List String := ["data-date", "data-year", "data-month", "data-day"]

/-! ### The formatter (`formatDate` / `applyAllDateFormats`) -/

/-- JS regex word character (`\w`): ASCII letters, digits, underscore. -/
def isWordChar (c : Char) : Bool := c.isAlphanum ∨ c = '_'

/-- A `\b` boundary holds before the match: start of string or a
non-word character precedes (tokens consist of word characters). -/
def boundaryBefore (prev : Option Char) : Bool :=
  match prev with
  | none => true
  | some c => !isWordChar c

/-- A `\b` boundary holds after the match: end of string or a non-word
character follows. -/
def boundaryAfter : List Char → Bool
  | [] => true
  | c :: _ => !isWordChar c

/-- One global-regex replacement pass,
`formatted.replace(new RegExp('\\b' + token + '\\b', 'g'), wrapped)`:
left-to-right scan, each whole-token occurrence bounded by `\b` is
replaced and scanning resumes after it (replacements are not rescanned
within the pass).  `prev` is the source character before the scan
position; `fuel` bounds the scan (the source length suffices). -/
def replaceGo (tok repl : List Char) : Nat → Option Char → List Char → List Char
  | 0, _, s => s
  | fuel + 1, prev, s =>
    match s with
    | [] => []
    | c :: rest =>
      if tok ≠ [] ∧ tok.isPrefixOf s ∧ boundaryBefore prev = true ∧
          boundaryAfter (s.drop tok.length) = true then
        repl ++ replaceGo tok repl fuel tok.getLast? (s.drop tok.length)
      else
        c :: replaceGo tok repl fuel (some c) rest

def replaceToken (tok repl : String) (s : String) : String :=
  String.mk (replaceGo tok.data repl.data s.data.length none s.data)

/-- `<span class="CLASS">VALUE</span>`. -/
def wrapSpan (className value : String) : String :=
  "<span class=\"" ++ className ++ "\">" ++ value ++ "</span>"

/-- `textContent` of markup: the text outside `<...>` tags. -/
def stripTagsGo : Bool → List Char → List Char
  | _, [] => []
  | true, c :: rest =>
    if c = '>' then stripTagsGo false rest else stripTagsGo true rest
  | false, c :: rest =>
    if c = '<' then stripTagsGo true rest else c :: stripTagsGo false rest

def stripTags (s : String) : String := String.mk (stripTagsGo false s.data)

/-- `el.innerHTML = s` (which also determines the new `textContent`). -/
def setInnerHTML (n : Node) (s : String) : Node :=
  { n with inner := s, text := stripTags s }

/-- Lines 76-87: the token table in its JS insertion order, as
(code, value, class) triples. -/
def tokensFor (d : SDate) : List (String × String × String) :=
  [("YYYY", natToStr d.year, "year-full"),
   ("YY", sliceLast2 (natToStr d.year), "year-short"),
   ("MMMM", monthLong d.month, "month-long"),
   ("MMM", monthShort d.month, "month-short"),
   ("MM", pad2 d.month, "month-numeric"),
   ("M", natToStr d.month, "month-numeric"),
   ("dddd", weekdayLong d, "weekday-long"),
   ("ddd", weekdayShort d, "weekday-short"),
   ("DD", pad2 d.day, "day-numeric"),
   ("D", natToStr d.day, "day-numeric")]

/-- Stable insertion for the descending-length sort. -/
def insertTok (x : String × String × String) :
    List (String × String × String) → List (String × String × String)
  | [] => [x]
  | y :: ys => if y.1.length ≤ x.1.length then x :: y :: ys else y :: insertTok x ys

/-- `Object.keys(tokens).sort((a, b) => b.length - a.length)`: a stable
sort by descending code length (JS `Array.prototype.sort` is stable). -/
def sortTokensDesc : List (String × String × String) →
    List (String × String × String)
  | [] => []
  | x :: xs => insertTok x (sortTokensDesc xs)

/-- Lines 90-109: apply every replacement pass, longest code first. -/
def substituteTokens (d : SDate) (format : String) : String :=
  (sortTokensDesc (tokensFor d)).foldl
    (fun acc t => replaceToken t.1 (wrapSpan t.2.2 t.2.1) acc) format

/-- One entry of `window.dateFormats`. -/
structure FormatConfig where
  selector : String
  name : String
  format : String
deriving DecidableEq, Repr

/-- Lines 58-114, the `forEach` body for one element: parse the trimmed
text (skip on failure), set `datetime` on `<time>` elements (`tagName
=== 'TIME'`; tags are stored lowercase here), substitute tokens and
replace the content with the wrapper span. -/
def formatDateElem (env : Env) (cfg : FormatConfig) (el : Node) : Node :=
  match env.parse (jsTrim el.text) with
  | none => el
  | some date =>
    let el :=
      if el.tag = "time" then
        { el with attrs := setAttr el.attrs "datetime" (isoDate date) }
      else el
    setInnerHTML el
      ("<span class=\"" ++ cfg.name ++ "\">" ++ substituteTokens date cfg.format
        ++ "</span>")

/-- `formatDate(data)`: rewrite every element matched by the selector
(`querySelectorAll` snapshot of the given document). -/
def formatDate (env : Env) (cfg : FormatConfig) (dom : Dom) : Dom :=
  dom.map (fun n => if env.sMatches cfg.selector n then formatDateElem env cfg n else n)

/-- The run-time shape of the global `window.dateFormats`. -/
inductive DateFormatsVal where
  | undef
  | nonArray (truthy : Bool)
  | arr (cs : List FormatConfig)
deriving DecidableEq

/-- Lines 123-129: `if (window.dateFormats && Array.isArray(window.dateFormats))`
guards the run; an array (even an empty one is truthy) is applied
configuration by configuration, in order. -/
def applyAllDateFormats (env : Env) (v : DateFormatsVal) (dom : Dom) : Dom :=
  match v with
  | .arr cs => cs.foldl (fun d c => formatDate env c d) dom
  | _ => dom

/-- The reference environment: `jsParseDate`, and a selector matcher
used only where a concrete document requires one. -/
def envR : Env := ⟨jsParseDate, fun _ _ => false⟩

example :
    substituteTokens ⟨2025, 12, 9⟩ "YYYY-MM-DD" =
      "<span class=\"year-full\">2025</span>-<span class=\"month-numeric\">12</span>-<span class=\"day-numeric\">09</span>" := by
  decide

example :
    (sortTokensDesc (tokensFor ⟨2025, 12, 9⟩)).map (fun t => t.1) =
      ["YYYY", "MMMM", "dddd", "MMM", "ddd", "YY", "MM", "DD", "M", "D"] := by
  decide

set_option maxRecDepth 8192 in
example :
    substituteTokens ⟨2025, 12, 9⟩ "dddd, MMMM D, YYYY" =
      "<span class=\"weekday-long\">Tuesday</span>, <span class=\"month-long\">December</span> <span class=\"day-numeric\">9</span>, <span class=\"year-full\">2025</span>" := by
  decide

/-! ### Concrete documents and environments for the claim instances -/

/-- An environment whose matcher models the CSS selector
`:not([data-date])` (an element matches iff it has no `data-date`
attribute) and rejects every other selector string. -/
def envNotDataDate : Env :=
  ⟨jsParseDate,
   fun sel n =>
     if sel = ":not([data-date])" then (getAttr n.attrs "data-date").isNone
     else false⟩

/-- `div > div > time[datetime="2025-12-09"]`. -/
def domChain : Dom :=
  [⟨0, none, "div", [], "", ""⟩,
   ⟨1, some 0, "div", [], "", ""⟩,
   ⟨2, some 1, "time", [("datetime", "2025-12-09")], "", ""⟩]

/-- `div > time[datetime="2025-12-09T08:00"]`. -/
def domIsoTime : Dom :=
  [⟨1, none, "div", [], "", ""⟩,
   ⟨2, some 1, "time", [("datetime", "2025-12-09T08:00")], "", ""⟩]

/-- `div > time[datetime="garbage"]`. -/
def domGarbage : Dom :=
  [⟨1, none, "div", [], "", ""⟩,
   ⟨2, some 1, "time", [("datetime", "garbage")], "", ""⟩]

example :
    lookupAttr (addDateDataAttributes envNotDataDate (some ":not([data-date])") domChain) 2 "data-date" = some "2025-12-09" := by decide
example :
    lookupAttr (addDateDataAttributes envNotDataDate (some ":not([data-date])") domChain) 1 "data-date" = none := by decide
example :
    lookupAttr (addDateDataAttributes envNotDataDate (some ":not([data-date])")
      (addDateDataAttributes envNotDataDate (some ":not([data-date])") domChain)) 1 "data-date" = some "2025-12-09" := by decide
example :
    lookupAttr (addDateDataAttributes envR none domIsoTime) 1 "data-date" = some "2025-12-09T08:00" := by decide
example :
    lookupAttr (addDateDataAttributes envR none domGarbage) 1 "data-year" = some "NaN" := by decide

/-- The write plan of a run: each step's writes, computed against the
initial document (legitimate under `MatchesStable`). -/
def runWrites (env : Env) (psel : Option String) (d : Dom) :
    List Nat → List Write
  | [] => []
  | i :: is => stepWrites env psel d i ++ runWrites env psel d is

/-- The last value written to node `i`, key `k` by a write list. -/
def lastWrite : List Write → Nat → String → Option String
  | [], _, _ => none
  | w :: ws, i, k =>
    match lastWrite ws i k with
    | some v => some v
    | none => if w.1 = i ∧ w.2.1 = k then some w.2.2 else none

/-- An environment whose matcher models tag selectors (`div`, `time`, ...):
matching is independent of attributes. -/
def envTagSel : Env := ⟨jsParseDate, fun sel n => sel == n.tag⟩

/-- `div > time[datetime=""]` with date text. -/
def elEmptyDt : Node :=
  ⟨2, some 1, "time", [("datetime", "")], "December 9, 2025", "December 9, 2025"⟩

/-- `div > time` with unparseable text. -/
def domTbd : Dom :=
  [⟨1, none, "div", [], "", ""⟩, ⟨2, some 1, "time", [], "TBD", "TBD"⟩]

/-- The spec's end-to-end formatter configuration. -/
def cfg4 : FormatConfig := ⟨".post-date time", "pretty-date", "dddd, MMMM D, YYYY"⟩

/-- A `<time>` element displaying "December 9, 2025". -/
def elDec : Node := ⟨5, none, "time", [], "December 9, 2025", "December 9, 2025"⟩

/-- A `<time>` element displaying "TBD". -/
def elTbd : Node := ⟨2, some 1, "time", [], "TBD", "TBD"⟩

/-! ### Write-plan lemmas for the annotator

The annotator only ever calls `setAttribute` with the four `data-*`
keys.  When selector matching is insensitive to those keys
(`MatchesStable`), every read the run performs (the `datetime`
attribute, the text content, the ancestor walk) is unaffected by the
run's own writes, so a run equals applying a write plan computed from
the initial document. -/

/-- Selector matching does not depend on the four written attributes. -/
def MatchesStable (env : Env) : Prop :=
  ∀ (sel : String) (n : Node) (k v : String), k ∈ dataKeys →
    env.sMatches sel { n with attrs := setAttr n.attrs k v } = env.sMatches sel n

/-- Every write in the list has one of the four annotator keys. -/
def DataWrites (ws : List Write) : Prop := ∀ w ∈ ws, w.2.1 ∈ dataKeys

theorem DataWrites_nil : DataWrites [] := by intro w hw; cases hw

theorem DataWrites_append {ws ws' : List Write} (h1 : DataWrites ws)
    (h2 : DataWrites ws') : DataWrites (ws ++ ws') := by
  intro w hw
  rcases List.mem_append.mp hw with h | h
  · exact h1 w h
  · exact h2 w h

theorem applyW1_id (w : Write) (n : Node) : (applyW1 w n).id = n.id := by
  unfold applyW1; split <;> rfl

theorem applyW1_parent (w : Write) (n : Node) : (applyW1 w n).parent = n.parent := by
  unfold applyW1; split <;> rfl

theorem applyW1_tag (w : Write) (n : Node) : (applyW1 w n).tag = n.tag := by
  unfold applyW1; split <;> rfl

theorem applyW1_text (w : Write) (n : Node) : (applyW1 w n).text = n.text := by
  unfold applyW1; split <;> rfl

theorem applyNodeWrites_id (ws : List Write) : ∀ n : Node,
    (applyNodeWrites n ws).id = n.id := by
  induction ws with
  | nil => intro n; rfl
  | cons w ws ih => intro n; simp only [applyNodeWrites]; rw [ih, applyW1_id]

theorem applyNodeWrites_parent (ws : List Write) : ∀ n : Node,
    (applyNodeWrites n ws).parent = n.parent := by
  induction ws with
  | nil => intro n; rfl
  | cons w ws ih => intro n; simp only [applyNodeWrites]; rw [ih, applyW1_parent]

theorem applyNodeWrites_tag (ws : List Write) : ∀ n : Node,
    (applyNodeWrites n ws).tag = n.tag := by
  induction ws with
  | nil => intro n; rfl
  | cons w ws ih => intro n; simp only [applyNodeWrites]; rw [ih, applyW1_tag]

theorem applyNodeWrites_text (ws : List Write) : ∀ n : Node,
    (applyNodeWrites n ws).text = n.text := by
  induction ws with
  | nil => intro n; rfl
  | cons w ws ih => intro n; simp only [applyNodeWrites]; rw [ih, applyW1_text]

/-- A document-level write is the node-level write mapped over the list. -/
theorem applyWrites_map : ∀ (ws : List Write) (d : Dom),
    applyWrites d ws = d.map (fun n => applyNodeWrites n ws)
  | [], d => by simp [applyWrites, applyNodeWrites]
  | w :: ws, d => by
    simp only [applyWrites, applyWriteDom]
    rw [applyWrites_map ws (d.map (applyW1 w)), List.map_map]
    rfl

theorem getAttr_setAttr (a : Attrs) (k v q : String) :
    getAttr (setAttr a k v) q = if k = q then some v else getAttr a q := by
  induction a with
  | nil => simp [setAttr, getAttr]
  | cons p rest ih =>
    obtain ⟨pk, pv⟩ := p
    by_cases h1 : pk = k
    · subst h1
      simp only [setAttr, if_pos rfl, getAttr]
      by_cases h2 : pk = q
      · simp [h2]
      · simp [h2]
    · simp only [setAttr, if_neg h1, getAttr]
      by_cases h2 : pk = q
      · subst h2
        have hk : ¬k = pk := fun hc => h1 hc.symm
        simp [hk]
      · simp [h2, ih]

theorem getAttr_applyW1 (w : Write) (hw : w.2.1 ∈ dataKeys) (n : Node)
    (q : String) (hq : q ∉ dataKeys) :
    getAttr (applyW1 w n).attrs q = getAttr n.attrs q := by
  unfold applyW1; split
  · show getAttr (setAttr n.attrs w.2.1 w.2.2) q = _
    have hne : ¬w.2.1 = q := by
      intro hc; rw [hc] at hw; exact hq hw
    rw [getAttr_setAttr, if_neg hne]
  · rfl

theorem getAttr_applyNodeWrites {ws : List Write} (hws : DataWrites ws)
    {q : String} (hq : q ∉ dataKeys) : ∀ n : Node,
    getAttr (applyNodeWrites n ws).attrs q = getAttr n.attrs q := by
  induction ws with
  | nil => intro n; rfl
  | cons w ws ih =>
    intro n
    simp only [applyNodeWrites]
    rw [ih (fun w hw => hws w (List.mem_cons_of_mem _ hw)),
      getAttr_applyW1 w (hws w (List.mem_cons_self w ws)) n q hq]

theorem sMatches_applyW1 {env : Env} (H : MatchesStable env) (w : Write)
    (hw : w.2.1 ∈ dataKeys) (sel : String) (n : Node) :
    env.sMatches sel (applyW1 w n) = env.sMatches sel n := by
  unfold applyW1; split
  · exact H sel n w.2.1 w.2.2 hw
  · rfl

theorem sMatches_applyNodeWrites {env : Env} (H : MatchesStable env)
    {ws : List Write} (hws : DataWrites ws) : ∀ (n : Node) (sel : String),
    env.sMatches sel (applyNodeWrites n ws) = env.sMatches sel n := by
  induction ws with
  | nil => intro n sel; rfl
  | cons w ws ih =>
    intro n sel
    simp only [applyNodeWrites]
    rw [ih (fun w hw => hws w (List.mem_cons_of_mem _ hw)),
      sMatches_applyW1 H w (hws w (List.mem_cons_self w ws))]

theorem findNode_map (d : Dom) (f : Node → Node) (hid : ∀ n, (f n).id = n.id)
    (i : Nat) : findNode (d.map f) i = (findNode d i).map f := by
  induction d with
  | nil => rfl
  | cons n rest ih =>
    simp only [List.map_cons, findNode, hid n]
    by_cases h : n.id = i
    · simp [h]
    · simp [h, ih]

theorem closestFrom_map (env : Env) (d : Dom) (sel : String) (f : Node → Node)
    (hid : ∀ n, (f n).id = n.id) (hpar : ∀ n, (f n).parent = n.parent)
    (hm : ∀ s n, env.sMatches s (f n) = env.sMatches s n) (fuel : Nat) :
    ∀ n : Node,
      closestFrom env (d.map f) sel fuel (f n) = closestFrom env d sel fuel n := by
  induction fuel with
  | zero => intro n; rfl
  | succ fuel ih =>
    intro n
    simp only [closestFrom, hm sel n, hid n, hpar n]
    by_cases h : env.sMatches sel n
    · simp [h]
    · simp only [h, if_neg, Bool.false_eq_true, if_false]
      cases n.parent with
      | none => rfl
      | some p =>
        show (match findNode (List.map f d) p with
          | none => none
          | some pn => closestFrom env (List.map f d) sel fuel pn) =
          (match findNode d p with
          | none => none
          | some pn => closestFrom env d sel fuel pn)
        rw [findNode_map d f hid p]
        cases findNode d p with
        | none => rfl
        | some pn => exact ih pn

theorem resolveDateValue_applyNodeWrites (env : Env) {ws : List Write}
    (hws : DataWrites ws) (n : Node) :
    resolveDateValue env (applyNodeWrites n ws) = resolveDateValue env n := by
  unfold resolveDateValue
  rw [applyNodeWrites_text,
    getAttr_applyNodeWrites hws (q := "datetime") (by decide) n]

theorem resolveTarget_map (env : Env) (psel : Option String) (d : Dom)
    {ws : List Write} (H : MatchesStable env) (hws : DataWrites ws) (el : Node) :
    resolveTarget env psel (d.map (fun n => applyNodeWrites n ws))
      (applyNodeWrites el ws) = resolveTarget env psel d el := by
  cases psel with
  | none => simp [resolveTarget, applyNodeWrites_parent]
  | some sel =>
    simp only [resolveTarget, List.length_map]
    exact closestFrom_map env d sel _ (applyNodeWrites_id ws)
      (applyNodeWrites_parent ws)
      (fun s n => sMatches_applyNodeWrites H hws n s) d.length el

theorem stepWrites_applyWrites (env : Env) (psel : Option String) (d : Dom)
    (i : Nat) {ws : List Write} (H : MatchesStable env) (hws : DataWrites ws) :
    stepWrites env psel (applyWrites d ws) i = stepWrites env psel d i := by
  unfold stepWrites
  rw [applyWrites_map, findNode_map d _ (applyNodeWrites_id ws) i]
  cases findNode d i with
  | none => rfl
  | some el =>
    show (match resolveDateValue env (applyNodeWrites el ws) with
      | none => []
      | some dv =>
        match resolveTarget env psel (d.map fun n => applyNodeWrites n ws)
            (applyNodeWrites el ws) with
        | none => []
        | some tid =>
          (dateWrites env dv).map (fun kv : String × String => (tid, kv.1, kv.2))) = _
    rw [resolveDateValue_applyNodeWrites env hws el,
      resolveTarget_map env psel d H hws el]

theorem stepWrites_data (env : Env) (psel : Option String) (d : Dom) (i : Nat) :
    DataWrites (stepWrites env psel d i) := by
  intro w hw
  unfold stepWrites at hw
  split at hw
  · cases hw
  · split at hw
    · cases hw
    · split at hw
      · cases hw
      · simp only [List.mem_map] at hw
        obtain ⟨kv, hkv, rfl⟩ := hw
        revert hkv
        unfold dateWrites
        split
        · intro hkv
          simp only [List.mem_cons, List.not_mem_nil, or_false] at hkv
          rcases hkv with rfl | rfl | rfl | rfl <;> simp [dataKeys]
        · intro hkv
          simp only [List.mem_cons, List.not_mem_nil, or_false] at hkv
          rcases hkv with rfl | rfl | rfl | rfl <;> simp [dataKeys]

theorem applyWrites_append : ∀ (ws ws' : List Write) (d : Dom),
    applyWrites d (ws ++ ws') = applyWrites (applyWrites d ws) ws'
  | [], ws', d => rfl
  | w :: ws, ws', d => by
    simp only [List.cons_append, applyWrites]
    exact applyWrites_append ws ws' _

theorem runWrites_data (env : Env) (psel : Option String) (d : Dom) :
    ∀ ids : List Nat, DataWrites (runWrites env psel d ids)
  | [] => DataWrites_nil
  | i :: is =>
    DataWrites_append (stepWrites_data env psel d i)
      (runWrites_data env psel d is)

/-- A run from any data-written state applies the plan computed from the
pristine document. -/
theorem foldl_processTimeEl (env : Env) (psel : Option String) (d : Dom)
    (H : MatchesStable env) :
    ∀ (ids : List Nat) (ws : List Write), DataWrites ws →
      ids.foldl (processTimeEl env psel) (applyWrites d ws) =
        applyWrites d (ws ++ runWrites env psel d ids) := by
  intro ids
  induction ids with
  | nil => intro ws hws; simp [runWrites]
  | cons i is ih =>
    intro ws hws
    rw [List.foldl_cons]
    have hstep : processTimeEl env psel (applyWrites d ws) i =
        applyWrites d (ws ++ stepWrites env psel d i) := by
      unfold processTimeEl
      rw [stepWrites_applyWrites env psel d i H hws, ← applyWrites_append]
    rw [hstep,
      ih (ws ++ stepWrites env psel d i)
        (DataWrites_append hws (stepWrites_data env psel d i))]
    show _ = applyWrites d (ws ++ (stepWrites env psel d i ++ runWrites env psel d is))
    rw [List.append_assoc]

theorem timeIds_map (d : Dom) (f : Node → Node) (hid : ∀ n, (f n).id = n.id)
    (htag : ∀ n, (f n).tag = n.tag) : timeIds (d.map f) = timeIds d := by
  induction d with
  | nil => rfl
  | cons n rest ih =>
    simp only [List.map_cons, timeIds, htag n, hid n]
    split <;> simp [ih]

/-- A run is the application of its write plan. -/
theorem addDateDataAttributes_eq_plan (env : Env) (psel : Option String)
    (dom : Dom) (H : MatchesStable env) :
    addDateDataAttributes env psel dom =
      applyWrites dom (runWrites env psel dom (timeIds dom)) := by
  have h := foldl_processTimeEl env psel dom H (timeIds dom) [] DataWrites_nil
  simpa [applyWrites] using h

/-- Two runs apply the plan twice. -/
theorem addDateDataAttributes_twice_eq_plan (env : Env) (psel : Option String)
    (dom : Dom) (H : MatchesStable env) :
    addDateDataAttributes env psel (addDateDataAttributes env psel dom) =
      applyWrites dom (runWrites env psel dom (timeIds dom) ++
        runWrites env psel dom (timeIds dom)) := by
  have h1 := addDateDataAttributes_eq_plan env psel dom H
  have htids : timeIds (addDateDataAttributes env psel dom) = timeIds dom := by
    rw [h1, applyWrites_map]
    exact timeIds_map dom _
      (applyNodeWrites_id (runWrites env psel dom (timeIds dom)))
      (applyNodeWrites_tag (runWrites env psel dom (timeIds dom)))
  show (timeIds (addDateDataAttributes env psel dom)).foldl
      (processTimeEl env psel) (addDateDataAttributes env psel dom) = _
  rw [htids, h1]
  exact foldl_processTimeEl env psel dom H (timeIds dom)
    (runWrites env psel dom (timeIds dom))
    (runWrites_data env psel dom (timeIds dom))

theorem getAttr_applyNodeWrites_lastWrite : ∀ (ws : List Write) (n : Node)
    (k : String),
    getAttr (applyNodeWrites n ws).attrs k =
      (match lastWrite ws n.id k with
       | some v => some v
       | none => getAttr n.attrs k) := by
  intro ws
  induction ws with
  | nil => intro n k; rfl
  | cons w ws ih =>
    intro n k
    show getAttr (applyNodeWrites (applyW1 w n) ws).attrs k = _
    rw [ih (applyW1 w n) k, applyW1_id]
    cases h : lastWrite ws n.id k with
    | some v => simp [lastWrite, h]
    | none =>
      simp only [lastWrite, h]
      unfold applyW1
      by_cases h1 : n.id = w.1
      · rw [if_pos h1]
        show getAttr (setAttr n.attrs w.2.1 w.2.2) k = _
        rw [getAttr_setAttr]
        by_cases h2 : w.2.1 = k
        · rw [if_pos h2, if_pos ⟨h1.symm, h2⟩]
        · rw [if_neg h2, if_neg (fun hc => h2 hc.2)]
      · rw [if_neg h1, if_neg (fun hc => h1 hc.1.symm)]

theorem lookupAttr_applyWrites (d : Dom) (ws : List Write) (i : Nat)
    (k : String) :
    lookupAttr (applyWrites d ws) i k =
      (match findNode d i with
       | none => none
       | some n =>
         match lastWrite ws n.id k with
         | some v => some v
         | none => getAttr n.attrs k) := by
  unfold lookupAttr
  rw [applyWrites_map, findNode_map d _ (applyNodeWrites_id ws) i]
  cases findNode d i with
  | none => rfl
  | some n => exact getAttr_applyNodeWrites_lastWrite ws n k

theorem lastWrite_append : ∀ (ws ws' : List Write) (i : Nat) (k : String),
    lastWrite (ws ++ ws') i k =
      (match lastWrite ws' i k with
       | some v => some v
       | none => lastWrite ws i k)
  | [], ws', i, k => by cases h : lastWrite ws' i k <;> simp [lastWrite, h]
  | w :: ws, ws', i, k => by
    simp only [List.cons_append, lastWrite, List.append_eq]
    rw [lastWrite_append ws ws' i k]
    cases h : lastWrite ws' i k <;> simp

/-- `closest` returns the first match of the self-then-ancestors chain. -/
theorem closestFrom_eq_find (env : Env) (dom : Dom) (sel : String) :
    ∀ (fuel : Nat) (n : Node),
      closestFrom env dom sel fuel n =
        ((ancestorChain dom fuel n).find?
          (fun m => env.sMatches sel m)).map (fun m => m.id) := by
  intro fuel
  induction fuel with
  | zero => intro n; rfl
  | succ fuel ih =>
    intro n
    simp only [closestFrom, ancestorChain, List.find?_cons]
    by_cases h : env.sMatches sel n
    · simp [h]
    · simp only [h, Bool.false_eq_true, if_false]
      cases n.parent with
      | none => rfl
      | some p =>
        show (match findNode dom p with
          | none => none
          | some pn => closestFrom env dom sel fuel pn) =
          ((match findNode dom p with
            | none => ([] : List Node)
            | some pn => ancestorChain dom fuel pn).find?
              (fun m : Node => env.sMatches sel m)).map (fun m : Node => m.id)
        cases findNode dom p with
        | none => rfl
        | some pn => exact ih pn

/-! ### Claim theorems -/

/-- C1 (counterexample): a `<time>` element may carry a perfectly valid
machine-readable datetime value that is not in normalized `YYYY-MM-DD`
form (here `2025-12-09T08:00`).  The annotator writes `data-date` as the
attribute value verbatim, not as the normalized ISO date string the
claim requires. -/
theorem annotator_datetime_not_normalized :
    jsParseDate "2025-12-09T08:00" = some ⟨2025, 12, 9⟩ ∧
    isoDate ⟨2025, 12, 9⟩ = "2025-12-09" ∧
    lookupAttr (addDateDataAttributes envR none domIsoTime) 1 "data-date" =
      some "2025-12-09T08:00" ∧
    some "2025-12-09T08:00" ≠ some (isoDate (⟨2025, 12, 9⟩ : SDate)) :=
  ⟨by decide, by decide, by decide, by decide⟩

/-- C1 (amended): for a time element whose non-empty machine-readable
`datetime` value parses as a valid date, the annotator writes exactly
four attributes onto the resolved ancestor: `data-date` equal to the
raw attribute value (which equals the normalized ISO string exactly
when the attribute is already in `YYYY-MM-DD` form) and
`data-year`/`data-month`/`data-day` equal to the numeric components of
parsing that value. -/
theorem annotator_machine_value_writes (env : Env) (psel : Option String)
    (dom : Dom) (i tid : Nat) (el : Node) (s : String) (d : SDate)
    (hel : findNode dom i = some el)
    (hdt : getAttr el.attrs "datetime" = some s) (hne : s ≠ "")
    (hparse : env.parse s = some d)
    (htgt : resolveTarget env psel dom el = some tid) :
    stepWrites env psel dom i =
      [(tid, "data-date", s), (tid, "data-year", natToStr d.year),
       (tid, "data-month", natToStr d.month), (tid, "data-day", natToStr d.day)] := by
  have hdv : resolveDateValue env el = some s := by
    unfold resolveDateValue
    rw [hdt]
    simp [hne]
  unfold stepWrites dateWrites
  simp only [hel, hdv, htgt, hparse, List.map_cons, List.map_nil]

theorem annotator_machine_value_writes_witness :
    stepWrites envR none domChain 2 =
      [(1, "data-date", "2025-12-09"), (1, "data-year", "2025"),
       (1, "data-month", "12"), (1, "data-day", "9")] :=
  annotator_machine_value_writes envR none domChain 2 1
    ⟨2, some 1, "time", [("datetime", "2025-12-09")], "", ""⟩ "2025-12-09"
    ⟨2025, 12, 9⟩ (by decide) (by decide) (by decide) (by decide) (by decide)

/-- C2 (counterexample): an element whose resolved date value is the
unparseable machine-readable value `garbage` is not skipped: the
annotator still writes all four attributes (the numeric ones as `NaN`),
contradicting the claim that nothing is written whenever the resolved
value does not parse. -/
theorem annotator_writes_despite_invalid_machine_value :
    jsParseDate "garbage" = none ∧
    lookupAttr (addDateDataAttributes envR none domGarbage) 1 "data-date" =
      some "garbage" ∧
    lookupAttr (addDateDataAttributes envR none domGarbage) 1 "data-year" =
      some "NaN" :=
  ⟨by decide, by decide, by decide⟩

/-- C2 (amended): for a date-marking element with no (or an empty)
machine-readable value whose trimmed text does not parse as a valid
date, the annotator performs no writes at all and leaves the document
unchanged — the element is skipped silently. -/
theorem annotator_skips_unparseable_text (env : Env) (psel : Option String)
    (dom : Dom) (i : Nat) (el : Node)
    (hel : findNode dom i = some el)
    (hdt : getAttr el.attrs "datetime" = none ∨
      getAttr el.attrs "datetime" = some "")
    (hparse : env.parse (jsTrim el.text) = none) :
    stepWrites env psel dom i = [] ∧ processTimeEl env psel dom i = dom := by
  have hdv : resolveDateValue env el = none := by
    unfold resolveDateValue
    rcases hdt with h | h <;> rw [h] <;> simp [hparse]
  have hsw : stepWrites env psel dom i = [] := by
    unfold stepWrites
    simp only [hel, hdv]
  exact ⟨hsw, by unfold processTimeEl; rw [hsw]; rfl⟩

theorem annotator_skips_unparseable_text_witness :
    stepWrites envR none domTbd 2 = [] ∧ processTimeEl envR none domTbd 2 = domTbd :=
  annotator_skips_unparseable_text envR none domTbd 2
    ⟨2, some 1, "time", [], "TBD", "TBD"⟩ (by decide) (Or.inl (by decide))
    (by decide)

/-- C5: ancestor resolution.  With a configured selector the target is
the first match of the self-then-ancestors chain (so the element itself
when it matches); with no selector it is the immediate parent; and when
no target resolves, processing the element leaves the document
unchanged (silent skip). -/
theorem annotator_ancestor_resolution (env : Env) (dom : Dom)
    (psel : Option String) (i : Nat) (el : Node)
    (hel : findNode dom i = some el) :
    (∀ sel, psel = some sel →
      resolveTarget env psel dom el =
        ((ancestorChain dom dom.length el).find?
          (fun m : Node => env.sMatches sel m)).map (fun m : Node => m.id)) ∧
    (psel = none → resolveTarget env psel dom el = el.parent) ∧
    (resolveTarget env psel dom el = none →
      processTimeEl env psel dom i = dom) := by
  refine ⟨?_, ?_, ?_⟩
  · intro sel h
    subst h
    exact closestFrom_eq_find env dom sel dom.length el
  · intro h
    subst h
    rfl
  · intro h
    unfold processTimeEl stepWrites
    simp only [hel]
    cases hdv : resolveDateValue env el with
    | none => rfl
    | some dv => simp only [h]; rfl

theorem annotator_ancestor_resolution_witness :
    resolveTarget envR none domChain
      ⟨2, some 1, "time", [("datetime", "2025-12-09")], "", ""⟩ = some 1 :=
  (annotator_ancestor_resolution envR domChain none 2
    ⟨2, some 1, "time", [("datetime", "2025-12-09")], "", ""⟩ (by decide)).2.1 rfl

/-- C6 (counterexample): the annotator is not idempotent for selectors
that are sensitive to the attributes it writes.  With the ancestor
selector `:not([data-date])`, the first run annotates the time element
itself (it matches, having no `data-date` yet); the second run then
annotates its parent (id 1), which the first run left untouched — so
running twice does not yield the attribute values of running once. -/
theorem annotator_not_idempotent :
    lookupAttr
      (addDateDataAttributes envNotDataDate (some ":not([data-date])")
        (addDateDataAttributes envNotDataDate (some ":not([data-date])") domChain))
      1 "data-date" ≠
    lookupAttr
      (addDateDataAttributes envNotDataDate (some ":not([data-date])") domChain)
      1 "data-date" := by
  decide

/-- C6 (amended): whenever selector matching is insensitive to the four
written `data-*` attributes (`MatchesStable`, true of any selector that
does not reference them — in particular of the no-selector parent
fallback), running the annotator twice on an otherwise unchanged
document yields exactly the attribute values of running it once:
nothing accumulates. -/
theorem annotator_idempotent_stable (env : Env) (psel : Option String)
    (dom : Dom) (H : MatchesStable env) (i : Nat) (k : String) :
    lookupAttr
      (addDateDataAttributes env psel (addDateDataAttributes env psel dom)) i k =
    lookupAttr (addDateDataAttributes env psel dom) i k := by
  rw [addDateDataAttributes_twice_eq_plan env psel dom H,
    addDateDataAttributes_eq_plan env psel dom H,
    lookupAttr_applyWrites, lookupAttr_applyWrites]
  cases findNode dom i with
  | none => rfl
  | some n =>
    show (match lastWrite (runWrites env psel dom (timeIds dom) ++
        runWrites env psel dom (timeIds dom)) n.id k with
      | some v => some v
      | none => getAttr n.attrs k) = _
    rw [lastWrite_append]
    cases h : lastWrite (runWrites env psel dom (timeIds dom)) n.id k <;> simp [h]

theorem annotator_idempotent_stable_witness :
    lookupAttr
      (addDateDataAttributes envTagSel (some "div")
        (addDateDataAttributes envTagSel (some "div") domChain)) 1 "data-date" =
    lookupAttr (addDateDataAttributes envTagSel (some "div") domChain)
      1 "data-date" :=
  annotator_idempotent_stable envTagSel (some "div") domChain
    (fun _ _ _ _ _ => rfl) 1 "data-date"

/-- C10: a present-but-empty `datetime` attribute is treated as absent
(JS truthiness): the annotator falls back to parsing the element's
trimmed text, rather than using the empty value or skipping the
element. -/
theorem annotator_empty_datetime_fallback (env : Env) (el : Node)
    (hdt : getAttr el.attrs "datetime" = some "") :
    resolveDateValue env el =
      (match env.parse (jsTrim el.text) with
       | none => none
       | some d => some (isoDate d)) := by
  unfold resolveDateValue
  rw [hdt]
  simp

theorem annotator_empty_datetime_fallback_witness :
    resolveDateValue envR elEmptyDt = some "2025-12-09" :=
  (annotator_empty_datetime_fallback envR elEmptyDt (by decide)).trans (by decide)

set_option maxRecDepth 8192 in
/-- C3: the token table is applied longest code first (the stable
descending-length sort of the JS key order), and formatting
`YYYY-MM-DD` for 2025-12-09 yields exactly the three wrapped spans with
values `2025`, `12`, `09` — the four-letter year token is not partially
consumed by its two-letter substring form. -/
theorem formatter_token_substitution :
    (sortTokensDesc (tokensFor ⟨2025, 12, 9⟩)).map (fun t => t.1) =
      ["YYYY", "MMMM", "dddd", "MMM", "ddd", "YY", "MM", "DD", "M", "D"] ∧
    substituteTokens ⟨2025, 12, 9⟩ "YYYY-MM-DD" =
      wrapSpan "year-full" "2025" ++ "-" ++ wrapSpan "month-numeric" "12" ++
        "-" ++ wrapSpan "day-numeric" "09" :=
  ⟨by decide, by decide⟩

set_option maxRecDepth 8192 in
/-- C4: every rewritten element's content becomes the token-substituted
template wrapped exactly once in a span carrying the configuration's
wrapper class; concretely, `dddd, MMMM D, YYYY` applied to
"December 9, 2025" yields the weekday/month/day/year spans inside a
`pretty-date` span. -/
theorem formatter_wraps_once :
    (∀ (env : Env) (cfg : FormatConfig) (el : Node) (d : SDate),
      env.parse (jsTrim el.text) = some d →
        (formatDateElem env cfg el).inner =
          "<span class=\"" ++ cfg.name ++ "\">" ++
            substituteTokens d cfg.format ++ "</span>") ∧
    formatDateElem envR cfg4 elDec =
      ⟨5, none, "time", [("datetime", "2025-12-09")],
       "Tuesday, December 9, 2025",
       "<span class=\"pretty-date\"><span class=\"weekday-long\">Tuesday</span>, <span class=\"month-long\">December</span> <span class=\"day-numeric\">9</span>, <span class=\"year-full\">2025</span></span>"⟩ := by
  constructor
  · intro env cfg el d hparse
    unfold formatDateElem
    rw [hparse]
    rfl
  · decide

set_option maxRecDepth 8192 in
theorem formatter_wraps_once_witness :
    (formatDateElem envR cfg4 elDec).inner =
      "<span class=\"" ++ cfg4.name ++ "\">" ++
        substituteTokens ⟨2025, 12, 9⟩ cfg4.format ++ "</span>" :=
  formatter_wraps_once.1 envR cfg4 elDec ⟨2025, 12, 9⟩ (by decide)

/-- C7: an element whose trimmed text does not parse as a valid date is
left completely untouched by the formatter — the element is unchanged
and so is its position in the processed document. -/
theorem formatter_skips_unparseable (env : Env) (cfg : FormatConfig) (el : Node)
    (hparse : env.parse (jsTrim el.text) = none) :
    formatDateElem env cfg el = el ∧
    ∀ (dom : Dom) (j : Nat), dom[j]? = some el →
      (formatDate env cfg dom)[j]? = some el := by
  have h1 : formatDateElem env cfg el = el := by
    unfold formatDateElem
    rw [hparse]
  refine ⟨h1, ?_⟩
  intro dom j hj
  unfold formatDate
  rw [List.getElem?_map, hj]
  by_cases hm : env.sMatches cfg.selector el <;> simp [hm, h1]

theorem formatter_skips_unparseable_witness :
    formatDateElem envR cfg4 elTbd = elTbd ∧
    ∀ (dom : Dom) (j : Nat), dom[j]? = some elTbd →
      (formatDate envR cfg4 dom)[j]? = some elTbd :=
  formatter_skips_unparseable envR cfg4 elTbd (by decide)

/-- C8: when the formatter rewrites an element, the only mutations are
the content replacement and — exactly when the element is a `<time>`
element — setting its `datetime` attribute to the normalized ISO date;
identity, parent and tag are preserved, non-`time` elements keep their
attributes unchanged, and elements the selector does not match are not
changed at all by the run. -/
theorem formatter_frame_effect (env : Env) (cfg : FormatConfig) (el : Node)
    (d : SDate) (hparse : env.parse (jsTrim el.text) = some d) :
    ((formatDateElem env cfg el).id = el.id ∧
     (formatDateElem env cfg el).parent = el.parent ∧
     (formatDateElem env cfg el).tag = el.tag) ∧
    (el.tag = "time" →
      (formatDateElem env cfg el).attrs =
        setAttr el.attrs "datetime" (isoDate d)) ∧
    (el.tag ≠ "time" → (formatDateElem env cfg el).attrs = el.attrs) ∧
    (∀ (dom : Dom) (j : Nat) (n : Node), dom[j]? = some n →
      env.sMatches cfg.selector n = false →
      (formatDate env cfg dom)[j]? = some n) := by
  have hform : formatDateElem env cfg el =
      setInnerHTML
        (if el.tag = "time" then
          { el with attrs := setAttr el.attrs "datetime" (isoDate d) }
         else el)
        ("<span class=\"" ++ cfg.name ++ "\">" ++
          substituteTokens d cfg.format ++ "</span>") := by
    unfold formatDateElem
    rw [hparse]
  refine ⟨⟨?_, ?_, ?_⟩, ?_, ?_, ?_⟩
  · rw [hform]; by_cases h : el.tag = "time" <;> simp [h, setInnerHTML]
  · rw [hform]; by_cases h : el.tag = "time" <;> simp [h, setInnerHTML]
  · rw [hform]; by_cases h : el.tag = "time" <;> simp [h, setInnerHTML]
  · intro h; rw [hform]; simp [h, setInnerHTML]
  · intro h; rw [hform]; simp [h, setInnerHTML]
  · intro dom j n hj hm
    unfold formatDate
    rw [List.getElem?_map, hj]
    simp [hm]

theorem formatter_frame_effect_witness :
    (formatDateElem envR cfg4 elDec).attrs =
      setAttr elDec.attrs "datetime" (isoDate ⟨2025, 12, 9⟩) :=
  (formatter_frame_effect envR cfg4 elDec ⟨2025, 12, 9⟩ (by decide)).2.1 rfl

/-- C9: an absent or wrongly-shaped `dateFormats` global makes the
formatter's run a no-op, while a valid ordered sequence of
configurations is applied independently, in the order supplied. -/
theorem formatter_config_gate :
    (∀ (env : Env) (v : DateFormatsVal) (dom : Dom),
      (∀ cs, v ≠ DateFormatsVal.arr cs) → applyAllDateFormats env v dom = dom) ∧
    (∀ (env : Env) (dom : Dom),
      applyAllDateFormats env (DateFormatsVal.arr []) dom = dom) ∧
    (∀ (env : Env) (dom : Dom) (c : FormatConfig) (cs : List FormatConfig),
      applyAllDateFormats env (DateFormatsVal.arr (c :: cs)) dom =
        applyAllDateFormats env (DateFormatsVal.arr cs) (formatDate env c dom)) := by
  refine ⟨?_, ?_, ?_⟩
  · intro env v dom h
    cases v with
    | undef => rfl
    | nonArray t => rfl
    | arr cs => exact absurd rfl (h cs)
  · intro env dom; rfl
  · intro env dom c cs; rfl

theorem formatter_config_gate_witness :
    applyAllDateFormats envR DateFormatsVal.undef domChain = domChain :=
  formatter_config_gate.1 envR DateFormatsVal.undef domChain
    (fun _ h => DateFormatsVal.noConfusion h)
